import Mathlib

/-!
Verification of the port allocation and NAT rule reconciliation engine of
`apps/proxmox-nat/nat_manager.py` (class `NATManager`).

The embedding is shallow and executable:

* The SQLite tables `port_mappings` and `reserved_ports` become the two list
  fields of `DB` (the autoincrement `id` and `created_at` columns play no role
  in any claim and are omitted).
* The live iptables NAT table becomes a list of `FwRule`; `iptables -C`
  (`iptables_rule_exists`) is membership in that list, `iptables -A` appends.
  Whether the external `iptables` command succeeds is modelled by the
  environment predicate `Env.insertOk` (a failing command makes
  `subprocess.run(..., check=True)` raise, which the model propagates as an
  `Except.error`).
* `ss -tulpn` output parsing in `is_port_in_use` is abstracted to the set of
  ports the host reports as bound, `Env.livePorts`.
* Each Python method that mutates state becomes a function that takes the
  state explicitly and returns the post state together with an
  `Except String` result, so that the state at the moment an exception
  propagates is visible to the theorems.
-/

namespace NatManager

/-- One row of the `port_mappings` table (columns `id` and `created_at`
omitted: `id` never influences behaviour and `created_at` is an opaque
timestamp). -/
structure Mapping where
  container_ip : String
  external_port : Nat
  internal_port : Nat
  protocol : String
  temporary : Bool
  description : Option String
deriving DecidableEq, Repr

/-- The persisted store: the `port_mappings` rows in insertion order and the
`reserved_ports` table (`port` is a primary key, so the list never holds
duplicates; `INSERT OR IGNORE` is modelled accordingly). The reserved-port
`description` column never influences behaviour and is omitted. -/
structure DB where
  port_mappings : List Mapping
  reserved_ports : List Nat
deriving DecidableEq, Repr

/-- One DNAT rule of the live firewall table, as written by
`setup_iptables_rules`: `-p protocol --dport external_port
-j DNAT --to-destination container_ip:internal_port`. -/
structure FwRule where
  protocol : String
  external_port : Nat
  container_ip : String
  internal_port : Nat
deriving DecidableEq, Repr

/-- The environment of one engine operation: the configured base port
(`config['port_start']`), the set of ports `ss -tulpn` currently reports as
bound, and which iptables insert commands would succeed. -/
structure Env where
  port_start : Nat
  livePorts : List Nat
  insertOk : FwRule → Bool

/-! ### `validate_ip` -/

/-- Split a character list at every dot, mirroring what the regular
expression of `validate_ip` matches between the separators. -/
def splitDots : List Char → List (List Char)
  | [] => [[]]
  | c :: cs =>
    if c = '.' then [] :: splitDots cs
    else
      match splitDots cs with
      | [] => [[c]]
      | g :: gs => (c :: g) :: gs

/-- Numeric value of a digit run, as `int(octet)` computes it. -/
def octetVal (cs : List Char) : Nat :=
  cs.foldl (fun n c => n * 10 + (c.toNat - 48)) 0

/-- One octet of the dotted quad: the regex demands one to three digits and
the follow-up check demands `0 <= int(octet) <= 255`. -/
def octetOk (cs : List Char) : Bool :=
  decide (cs ≠ []) && decide (cs.length ≤ 3) && cs.all Char.isDigit &&
    decide (octetVal cs ≤ 255)

/-- `validate_ip`: the address must match four dot-separated runs of one to
three digits, each with value at most 255. -/
def validate_ip (ip : String) : Bool :=
  let parts := splitDots ip.data
  decide (parts.length = 4) && parts.all octetOk

/-! ### `assign_ports` -/

/-- `is_port_in_use`: whether `ss -tulpn` reports the port as bound. -/
def is_port_in_use (env : Env) (port : Nat) : Bool :=
  decide (port ∈ env.livePorts)

/-- The conflict test of one candidate block `[next, next+count)`: some port
of the block is already assigned, live bound, or reserved (the three
disjuncts in the order the Python loop tests them). -/
def blockConflict (assigned reserved : List Nat) (env : Env)
    (next count : Nat) : Bool :=
  (List.range count).any fun i =>
    decide (next + i ∈ assigned) || is_port_in_use env (next + i) ||
      decide (next + i ∈ reserved)

/-- The `while True` search of `assign_ports`, made total by explicit fuel:
try the block at `next`; on conflict advance by `count`. -/
def findBase (assigned reserved : List Nat) (env : Env) (count : Nat) :
    Nat → Nat → Option Nat
  | 0, _ => none
  | fuel + 1, next =>
    if blockConflict assigned reserved env next count then
      findBase assigned reserved env count fuel (next + count)
    else some next

/-- Enough fuel to always find a conflict-free block: every conflicting port
is bounded by the maximum of the three finite lists, so the search ends. -/
def searchFuel (assigned reserved : List Nat) (env : Env) : Nat :=
  (assigned ++ reserved ++ env.livePorts).foldr max 0 + 2

/-- `assign_ports`: collect the assigned and reserved ports from the store,
then scan candidate blocks from `port_start` and return the first block of
`num_ports` consecutive free ports. `none` never actually occurs (see
`assign_ports_isSome`); it only makes the fuel explicit. -/
def assign_ports (env : Env) (db : DB) (num_ports : Nat) : Option (List Nat) :=
  let assigned := db.port_mappings.map (fun m => m.external_port)
  let reserved := db.reserved_ports
  (findBase assigned reserved env num_ports
      (searchFuel assigned reserved env) env.port_start).map
    fun b => (List.range num_ports).map (fun i => b + i)

/-! ### `setup_iptables_rules` -/

/-- Python `zip` over three lists: truncates to the shortest. -/
def zip3 : List Nat → List Nat → List String → List (Nat × Nat × String)
  | e :: es, i :: is_, p :: ps => (e, i, p) :: zip3 es is_ ps
  | _, _, _ => []

/-- The firewall rule a `(external, internal, protocol)` triple for a given
container denotes. -/
def ruleOf (container_ip : String) (t : Nat × Nat × String) : FwRule :=
  { protocol := t.2.2, external_port := t.1,
    container_ip := container_ip, internal_port := t.2.1 }

/-- `iptables_rule_exists`: the exact-match probe (`iptables -C`) against the
live table. -/
def iptables_rule_exists (fw : List FwRule) (r : FwRule) : Bool :=
  decide (r ∈ fw)

/-- The insertion loop of `setup_iptables_rules`: for each triple, skip if
the rule already exists, else run `iptables -A` (which appends on success and
raises on failure, aborting the loop with the firewall in its current,
partially extended, state). -/
def setup_loop (env : Env) (container_ip : String) :
    List FwRule → List (Nat × Nat × String) → List FwRule × Except String Unit
  | fw, [] => (fw, Except.ok ())
  | fw, t :: ts =>
    let r := ruleOf container_ip t
    if iptables_rule_exists fw r then setup_loop env container_ip fw ts
    else if env.insertOk r then setup_loop env container_ip (fw ++ [r]) ts
    else (fw, Except.error "iptables insert command failed")

/-- `setup_iptables_rules`: zip the three lists, ensure each rule exists,
then enable IP forwarding (the `sysctl` call, assumed to succeed as it does
not bear on any claim) and, when `save_rules` is set, save the rule set to
durable storage (`save_iptables_rules` swallows its own errors, so saving is
recorded only as the returned flag). Returns the live firewall table, the
saved flag, and the outcome. -/
def setup_iptables_rules (env : Env) (fw : List FwRule) (container_ip : String)
    (external_ports internal_ports : List Nat) (protocols : List String)
    (save_rules : Bool) : List FwRule × Bool × Except String Unit :=
  match setup_loop env container_ip fw
      (zip3 external_ports internal_ports protocols) with
  | (fw', Except.ok _) => (fw', save_rules, Except.ok ())
  | (fw', Except.error e) => (fw', false, Except.error e)

/-! ### `add_container` -/

/-- The fixed well-known internal ports of automatic mode. -/
def INTERNAL_PORTS_DEFAULT : List Nat := [22, 80, 443, 8080]

/-- Their protocols. -/
def PROTOCOLS_DEFAULT : List String := ["tcp", "tcp", "tcp", "tcp"]

/-- The "Determine ports" chunk of `add_container`: explicit (truthy)
external ports are taken verbatim and `num_ports` is rebound to their
number; otherwise the allocator runs. -/
def determine_ports (env : Env) (db : DB) (num_ports : Int)
    (external_ports : Option (List Nat)) : Option (List Nat × Nat) :=
  match external_ports with
  | some (e :: es) => some (e :: es, (e :: es).length)
  | _ =>
    match assign_ports env db num_ports.toNat with
    | some ps => some (ps, num_ports.toNat)
    | none => none

/-- The "Determine internal ports and protocols" chunk of `add_container`.
In automatic mode slot `i` gets the i-th well-known service while it lasts
and the slot's own external port afterwards; in manual mode the caller lists
are used, with only the internal-port list validated against the count and a
falsy protocols list replaced by all-tcp. -/
def determine_targets (mode : String) (n : Nat) (assigned_ports : List Nat)
    (internal_ports : Option (List Nat))
    (protocols : Option (List String)) :
    Except String (List Nat × List String) :=
  if mode = "automatic" then
    Except.ok
      ((List.range n).map (fun i =>
          if i < INTERNAL_PORTS_DEFAULT.length then
            INTERNAL_PORTS_DEFAULT.getD i 0
          else assigned_ports.getD i 0),
       (List.range n).map (fun i =>
          if i < INTERNAL_PORTS_DEFAULT.length then
            PROTOCOLS_DEFAULT.getD i "tcp"
          else "tcp"))
  else if mode = "manual" then
    match internal_ports with
    | some (i0 :: is_) =>
      if (i0 :: is_).length ≠ n then
        Except.error "Number of internal ports doesn't match num_ports"
      else
        Except.ok (i0 :: is_,
          match protocols with
          | some (p :: ps) => p :: ps
          | _ => List.replicate n "tcp")
    | _ => Except.error "Internal ports required in manual mode"
  else Except.error "Invalid mode"

/-- The "Save to database" chunk of `add_container`: one row per bound
triple, appended as a single committed batch (the stored `temporary` column
keeps its schema default 0, since temporary batches are never persisted at
all). -/
def persist_mappings (db : DB) (container_ip : String)
    (description : Option String) (triples : List (Nat × Nat × String)) :
    DB :=
  { db with
    port_mappings := db.port_mappings ++ triples.map (fun t =>
      { container_ip := container_ip, external_port := t.1,
        internal_port := t.2.1, protocol := t.2.2,
        temporary := false, description := description }) }

/-- `add_container`. Arguments mirror the Python signature (defaults are
passed explicitly by callers of the model): optional lists are `none` for
Python `None`, and Python truthiness makes an empty list behave like `None`.
`num_ports` is an `Int` because the CLI can pass any integer; `Int.toNat`
clamps negatives to 0 exactly as Python `range` does. The result is the post
state of the store, the live firewall table, whether the rule set was saved
to durable storage, and either the bound triples or the raised error. -/
def add_container (env : Env) (db : DB) (fw : List FwRule)
    (container_ip : String) (mode : String) (num_ports : Int)
    (internal_ports : Option (List Nat)) (external_ports : Option (List Nat))
    (protocols : Option (List String)) (temporary : Bool)
    (description : Option String) :
    DB × List FwRule × Bool × Except String (List (Nat × Nat × String)) :=
  if ¬ validate_ip container_ip then
    (db, fw, false, Except.error "Invalid IP address")
  else if 0 < db.port_mappings.countP
      (fun m => decide (m.container_ip = container_ip)) then
    (db, fw, false, Except.error "IP already has port mappings")
  else
    match determine_ports env db num_ports external_ports with
    | none => (db, fw, false, Except.error "port search did not terminate")
    | some (assigned_ports, n) =>
      match determine_targets mode n assigned_ports internal_ports
          protocols with
      | Except.error e => (db, fw, false, Except.error e)
      | Except.ok (internalPorts, protocolsList) =>
        let save_rules := !temporary
        match setup_iptables_rules env fw container_ip assigned_ports
            internalPorts protocolsList save_rules with
        | (fw', _, Except.error e) => (db, fw', false, Except.error e)
        | (fw', saved, Except.ok _) =>
          let triples := zip3 assigned_ports internalPorts protocolsList
          let db' :=
            if temporary then db
            else persist_mappings db container_ip description triples
          (db', fw', saved, Except.ok triples)

/-! ### `reserve_ports`, `unreserve_ports` -/

/-- `reserve_ports`: `INSERT OR IGNORE` of each port into the primary-keyed
reserved table. -/
def reserve_ports (db : DB) (ports : List Nat) : DB :=
  { db with
    reserved_ports := ports.foldl
      (fun rs p => if p ∈ rs then rs else rs ++ [p]) db.reserved_ports }

/-- `unreserve_ports`: delete each listed port. -/
def unreserve_ports (db : DB) (ports : List Nat) : DB :=
  { db with
    reserved_ports := db.reserved_ports.filter fun p => decide (¬ p ∈ ports) }

/-! ### `import_mappings` -/

/-- One record of the import file after JSON parsing (`protocol` already
defaulted to `"tcp"` by `entry.get`). -/
structure ImportEntry where
  container_ip : String
  external_port : Nat
  internal_port : Nat
  protocol : String
  description : Option String
deriving DecidableEq, Repr

/-- `import_mappings` over the parsed entry list: each entry whose
`(container_ip, external_port)` pair is absent from the store is programmed
into the firewall and inserted. A firewall failure propagates with the state
reached so far. Returns post store, post firewall, imported count, outcome. -/
def import_mappings (env : Env) (db : DB) (fw : List FwRule) :
    List ImportEntry → DB × List FwRule × Nat × Except String Unit
  | [] => (db, fw, 0, Except.ok ())
  | entry :: rest =>
    if db.port_mappings.countP (fun m =>
        decide (m.container_ip = entry.container_ip ∧
          m.external_port = entry.external_port)) = 0 then
      match setup_iptables_rules env fw entry.container_ip
          [entry.external_port] [entry.internal_port] [entry.protocol] true with
      | (fw', _, Except.error e) => (db, fw', 0, Except.error e)
      | (fw', _, Except.ok _) =>
        let db' :=
          { db with
            port_mappings := db.port_mappings ++
              [{ container_ip := entry.container_ip,
                 external_port := entry.external_port,
                 internal_port := entry.internal_port,
                 protocol := entry.protocol, temporary := false,
                 description := entry.description }] }
        let res := import_mappings env db' fw' rest
        (res.1, res.2.1, res.2.2.1 + 1, res.2.2.2)
    else import_mappings env db fw rest

/-! ### `rebuild_database` -/

/-- `rebuild_database` over the rules parsed out of the `iptables-save`
snapshot. Line filtering and the three regular expressions are deterministic
functions of the snapshot text, so the same text always yields the same
`List FwRule`; the claims are stated over that parsed list. Each rule whose
`(container_ip, external_port, protocol)` key is absent is inserted
(store-only write). Returns the post store and the inserted count. -/
def rebuild_database (db : DB) : List FwRule → DB × Nat
  | [] => (db, 0)
  | r :: rs =>
    if db.port_mappings.countP (fun m =>
        decide (m.container_ip = r.container_ip ∧
          m.external_port = r.external_port ∧
          m.protocol = r.protocol)) = 0 then
      let db' :=
        { db with
          port_mappings := db.port_mappings ++
            [{ container_ip := r.container_ip,
               external_port := r.external_port,
               internal_port := r.internal_port, protocol := r.protocol,
               temporary := false, description := none }] }
      let res := rebuild_database db' rs
      (res.1, res.2 + 1)
    else rebuild_database db rs

/-! ### Reachability relations and store invariants -/

/-- Store states reachable from the freshly initialised (empty) database by
any sequence of `add_container`, `import_mappings` and `rebuild_database`
calls. Each step may see an arbitrary environment and arbitrary live
firewall table, since external actors can change both between calls. -/
inductive Reach : DB → Prop where
  | init : Reach { port_mappings := [], reserved_ports := [] }
  | add {db db' : DB} {env fw cip mode np ips eps protos temp desc fw' sv r} :
      Reach db →
      add_container env db fw cip mode np ips eps protos temp desc =
        (db', fw', sv, r) →
      Reach db'
  | imp {db db' : DB} {env fw entries fw' k r} :
      Reach db →
      import_mappings env db fw entries = (db', fw', k, r) →
      Reach db'
  | rebuild {db db' : DB} {rules k} :
      Reach db →
      rebuild_database db rules = (db', k) →
      Reach db'

/-- Like `Reach`, but additionally closed under the administrator operations
`reserve_ports` and `unreserve_ports`, so that states with a non-empty
reserved set are reachable. -/
inductive ReachR : DB → Prop where
  | init : ReachR { port_mappings := [], reserved_ports := [] }
  | add {db db' : DB} {env fw cip mode np ips eps protos temp desc fw' sv r} :
      ReachR db →
      add_container env db fw cip mode np ips eps protos temp desc =
        (db', fw', sv, r) →
      ReachR db'
  | imp {db db' : DB} {env fw entries fw' k r} :
      ReachR db →
      import_mappings env db fw entries = (db', fw', k, r) →
      ReachR db'
  | rebuild {db db' : DB} {rules k} :
      ReachR db →
      rebuild_database db rules = (db', k) →
      ReachR db'
  | reserve {db : DB} {ports} :
      ReachR db → ReachR (reserve_ports db ports)
  | unreserve {db : DB} {ports} :
      ReachR db → ReachR (unreserve_ports db ports)

/-- Store states reachable by `add_container` calls that never supply
explicit external ports (the allocator picks every port). -/
inductive ReachAuto : DB → Prop where
  | init : ReachAuto { port_mappings := [], reserved_ports := [] }
  | add {db db' : DB} {env fw cip mode np ips protos temp desc fw' sv r} :
      ReachAuto db →
      add_container env db fw cip mode np ips none protos temp desc =
        (db', fw', sv, r) →
      ReachAuto db'

/-- The uniqueness invariant of the spec: no two rows of the store share the
`(external_port, protocol)` pair. -/
def extProtoUnique (db : DB) : Prop :=
  db.port_mappings.Pairwise fun a b =>
    ¬ (a.external_port = b.external_port ∧ a.protocol = b.protocol)

/-- The stronger invariant the allocator actually maintains: all external
ports of the store are pairwise distinct. -/
def extsDistinct (db : DB) : Prop :=
  db.port_mappings.Pairwise fun a b => a.external_port ≠ b.external_port

/-- The `(container_ip, external_port, protocol)` key of a snapshot rule is
represented by some row of the store. -/
def keyPresent (db : DB) (r : FwRule) : Prop :=
  ∃ m ∈ db.port_mappings, m.container_ip = r.container_ip ∧
    m.external_port = r.external_port ∧ m.protocol = r.protocol

/-! ### Concrete fixtures for witnesses and counterexamples -/

/-- A benign environment: default base port 50000, no live sockets, and
every iptables insert command succeeds. -/
def envOk : Env :=
  { port_start := 50000, livePorts := [], insertOk := fun _ => true }

/-- An environment in which every iptables insert command fails. -/
def envBad : Env :=
  { port_start := 50000, livePorts := [], insertOk := fun _ => false }

/-- The freshly initialised empty store. -/
def dbEmpty : DB := { port_mappings := [], reserved_ports := [] }

/-- A store whose only content is a reservation of port 50001. -/
def dbRes : DB := { port_mappings := [], reserved_ports := [50001] }

/-- A store holding two rows that claim the same `(50000, tcp)` pair for two
different owners. -/
def dbDup : DB :=
  { port_mappings :=
      [Mapping.mk "10.0.0.1" 50000 22 "tcp" false none,
       Mapping.mk "10.0.0.2" 50000 22 "tcp" false none],
    reserved_ports := [] }

/-- A store in which port 50000 is reserved and yet also appears as the
external port of a persisted row. -/
def dbResBad : DB :=
  { port_mappings := [Mapping.mk "10.0.0.2" 50000 22 "tcp" false none],
    reserved_ports := [50000] }

/-! ### Lemmas about the allocator -/

theorem mem_le_foldr_max (l : List Nat) (p : Nat) (hp : p ∈ l) :
    p ≤ l.foldr max 0 :=
  List.le_max_of_le hp le_rfl

theorem blockConflict_true_iff (assigned reserved : List Nat) (env : Env)
    (next count : Nat) :
    blockConflict assigned reserved env next count = true ↔
      ∃ i < count, (next + i ∈ assigned ∨ next + i ∈ env.livePorts ∨
        next + i ∈ reserved) := by
  unfold blockConflict is_port_in_use
  rw [List.any_eq_true]
  constructor
  · rintro ⟨i, hi, hp⟩
    rw [List.mem_range] at hi
    refine ⟨i, hi, ?_⟩
    simp only [Bool.or_eq_true, decide_eq_true_iff] at hp
    rcases hp with (h | h) | h
    · exact Or.inl h
    · exact Or.inr (Or.inl h)
    · exact Or.inr (Or.inr h)
  · rintro ⟨i, hi, hp⟩
    refine ⟨i, List.mem_range.mpr hi, ?_⟩
    simp only [Bool.or_eq_true, decide_eq_true_iff]
    rcases hp with h | h | h
    · exact Or.inl (Or.inl h)
    · exact Or.inl (Or.inr h)
    · exact Or.inr h

theorem blockConflict_false_iff (assigned reserved : List Nat) (env : Env)
    (next count : Nat) :
    blockConflict assigned reserved env next count = false ↔
      ∀ i < count, ¬ (next + i ∈ assigned ∨ next + i ∈ env.livePorts ∨
        next + i ∈ reserved) := by
  rw [← Bool.not_eq_true, blockConflict_true_iff]
  push_neg
  constructor
  · intro h i hi
    exact h i hi
  · intro h i hi
    exact h i hi

theorem findBase_spec (assigned reserved : List Nat) (env : Env) (count : Nat) :
    ∀ fuel next b, findBase assigned reserved env count fuel next = some b →
      ∃ k, b = next + k * count ∧
        blockConflict assigned reserved env b count = false ∧
        ∀ j < k, blockConflict assigned reserved env (next + j * count) count
          = true := by
  intro fuel
  induction fuel with
  | zero => intro next b h; simp [findBase] at h
  | succ f ih =>
    intro next b h
    rw [findBase] at h
    by_cases hc : blockConflict assigned reserved env next count
    · rw [if_pos hc] at h
      obtain ⟨k, hb, hfree, hprev⟩ := ih (next + count) b h
      refine ⟨k + 1, by rw [hb]; ring, hfree, ?_⟩
      intro j hj
      cases j with
      | zero => simpa using hc
      | succ j' =>
        have h' := hprev j' (by omega)
        have heq : next + count + j' * count = next + (j' + 1) * count := by
          ring
        rw [heq] at h'
        exact h'
    · rw [if_neg hc] at h
      injection h with h
      subst h
      exact ⟨0, by simp, by simpa using hc, by omega⟩

theorem findBase_isSome (assigned reserved : List Nat) (env : Env)
    (count : Nat) :
    ∀ fuel next,
      (∃ j, j < fuel ∧
        blockConflict assigned reserved env (next + j * count) count = false) →
      (findBase assigned reserved env count fuel next).isSome := by
  intro fuel
  induction fuel with
  | zero =>
    intro next h
    obtain ⟨j, hj, _⟩ := h
    omega
  | succ f ih =>
    intro next h
    obtain ⟨j, hj, hfree⟩ := h
    rw [findBase]
    by_cases hc : blockConflict assigned reserved env next count
    · rw [if_pos hc]
      apply ih
      cases j with
      | zero =>
        exact absurd hc (by simpa using hfree)
      | succ j' =>
        refine ⟨j', by omega, ?_⟩
        have heq : next + (j' + 1) * count = next + count + j' * count := by
          ring
        rw [heq] at hfree
        exact hfree
    · rw [if_neg hc]
      rfl

theorem assign_ports_isSome (env : Env) (db : DB) (n : Nat) :
    (assign_ports env db n).isSome := by
  have hwit : ∃ j,
      j < searchFuel (db.port_mappings.map (fun m => m.external_port))
        db.reserved_ports env ∧
      blockConflict (db.port_mappings.map (fun m => m.external_port))
        db.reserved_ports env (env.port_start + j * n) n = false := by
    by_cases hn : n = 0
    · subst hn
      exact ⟨0, by simp [searchFuel], by simp [blockConflict]⟩
    · set assigned := db.port_mappings.map (fun m => m.external_port) with ha
      set M := (assigned ++ db.reserved_ports ++ env.livePorts).foldr max 0
        with hM
      refine ⟨M + 1, by simp [searchFuel, hM], ?_⟩
      rw [blockConflict_false_iff]
      intro i hi hmem
      have hbig : M + 1 ≤ env.port_start + (M + 1) * n + i := by
        have h1 : M + 1 ≤ (M + 1) * n := Nat.le_mul_of_pos_right _ (by omega)
        omega
      have hsmall : env.port_start + (M + 1) * n + i ≤ M := by
        apply mem_le_foldr_max
        rcases hmem with h | h | h
        · exact List.mem_append.mpr (Or.inl (List.mem_append.mpr (Or.inl h)))
        · exact List.mem_append.mpr (Or.inr h)
        · exact List.mem_append.mpr (Or.inl (List.mem_append.mpr (Or.inr h)))
      omega
  have h := findBase_isSome (db.port_mappings.map (fun m => m.external_port))
    db.reserved_ports env n
    (searchFuel (db.port_mappings.map (fun m => m.external_port))
      db.reserved_ports env) env.port_start hwit
  obtain ⟨b, hb⟩ := Option.isSome_iff_exists.mp h
  unfold assign_ports
  simp [hb]

theorem assign_ports_spec (env : Env) (db : DB) (n : Nat) (ps : List Nat)
    (h : assign_ports env db n = some ps) :
    ∃ k, ps = (List.range n).map (fun i => env.port_start + k * n + i) ∧
      (∀ i < n,
        ¬ (env.port_start + k * n + i ∈
             db.port_mappings.map (fun m => m.external_port) ∨
           env.port_start + k * n + i ∈ env.livePorts ∨
           env.port_start + k * n + i ∈ db.reserved_ports)) ∧
      (∀ j < k, ∃ i < n,
        (env.port_start + j * n + i ∈
           db.port_mappings.map (fun m => m.external_port) ∨
         env.port_start + j * n + i ∈ env.livePorts ∨
         env.port_start + j * n + i ∈ db.reserved_ports)) := by
  unfold assign_ports at h
  obtain ⟨b, hfb, hps⟩ := Option.map_eq_some'.mp h
  obtain ⟨k, hb, hfree, hconf⟩ :=
    findBase_spec _ _ _ _ _ _ _ hfb
  subst hb
  refine ⟨k, ?_, ?_, ?_⟩
  · exact hps.symm
  · intro i hi
    rw [blockConflict_false_iff] at hfree
    have := hfree i hi
    intro hmem
    exact this (by tauto)
  · intro j hj
    have := hconf j hj
    rw [blockConflict_true_iff] at this
    obtain ⟨i, hi, hmem⟩ := this
    exact ⟨i, hi, by tauto⟩

theorem assign_ports_length (env : Env) (db : DB) (n : Nat) (ps : List Nat)
    (h : assign_ports env db n = some ps) : ps.length = n := by
  obtain ⟨k, hps, -, -⟩ := assign_ports_spec env db n ps h
  simp [hps]

theorem assign_ports_pairwise_ne (env : Env) (db : DB) (n : Nat)
    (ps : List Nat) (h : assign_ports env db n = some ps) :
    ps.Pairwise (· ≠ ·) := by
  obtain ⟨k, hps, -, -⟩ := assign_ports_spec env db n ps h
  subst hps
  rw [List.pairwise_map]
  exact (List.pairwise_lt_range n).imp (by omega)

theorem assign_ports_not_assigned (env : Env) (db : DB) (n : Nat)
    (ps : List Nat) (h : assign_ports env db n = some ps) :
    ∀ p ∈ ps, ¬ p ∈ db.port_mappings.map (fun m => m.external_port) := by
  obtain ⟨k, hps, hfree, -⟩ := assign_ports_spec env db n ps h
  subst hps
  intro p hp
  obtain ⟨i, hi, rfl⟩ := List.mem_map.mp hp
  rw [List.mem_range] at hi
  intro hmem
  exact hfree i hi (Or.inl hmem)

theorem assign_ports_not_reserved (env : Env) (db : DB) (n : Nat)
    (ps : List Nat) (h : assign_ports env db n = some ps) :
    ∀ p ∈ ps, ¬ p ∈ db.reserved_ports := by
  obtain ⟨k, hps, hfree, -⟩ := assign_ports_spec env db n ps h
  subst hps
  intro p hp
  obtain ⟨i, hi, rfl⟩ := List.mem_map.mp hp
  rw [List.mem_range] at hi
  intro hmem
  exact hfree i hi (Or.inr (Or.inr hmem))

/-! ### Lemmas about `zip3` and the firewall loop -/

theorem zip3_length (a b : List Nat) (c : List String) :
    (zip3 a b c).length = min a.length (min b.length c.length) := by
  induction a generalizing b c with
  | nil => simp [zip3]
  | cons x xs ih =>
    cases b with
    | nil => simp [zip3]
    | cons y ys =>
      cases c with
      | nil => simp [zip3]
      | cons z zs =>
        simp only [zip3, List.length_cons, ih]
        omega

theorem zip3_map_fst_sublist (a b : List Nat) (c : List String) :
    ((zip3 a b c).map (fun t => t.1)).Sublist a := by
  induction a generalizing b c with
  | nil => simp [zip3]
  | cons x xs ih =>
    cases b with
    | nil =>
      simp only [zip3, List.map_nil]
      exact List.nil_sublist _
    | cons y ys =>
      cases c with
      | nil =>
        simp only [zip3, List.map_nil]
        exact List.nil_sublist _
      | cons z zs =>
        simpa [zip3] using List.Sublist.cons₂ x (ih ys zs)

theorem setup_loop_ok_superset (env : Env) (cip : String) :
    ∀ ts fw fw' u, setup_loop env cip fw ts = (fw', Except.ok u) →
      ∀ x ∈ fw, x ∈ fw' := by
  intro ts
  induction ts with
  | nil =>
    intro fw fw' u h x hx
    simp only [setup_loop, Prod.mk.injEq] at h
    rw [← h.1]
    exact hx
  | cons t ts ih =>
    intro fw fw' u h x hx
    simp only [setup_loop] at h
    by_cases he : iptables_rule_exists fw (ruleOf cip t)
    · rw [if_pos he] at h
      exact ih fw fw' u h x hx
    · rw [if_neg he] at h
      by_cases hok : env.insertOk (ruleOf cip t)
      · rw [if_pos hok] at h
        exact ih _ fw' u h x (List.mem_append.mpr (Or.inl hx))
      · rw [if_neg hok] at h
        simp at h

theorem setup_loop_ok_mem (env : Env) (cip : String) :
    ∀ ts fw fw' u, setup_loop env cip fw ts = (fw', Except.ok u) →
      ∀ t ∈ ts, ruleOf cip t ∈ fw' := by
  intro ts
  induction ts with
  | nil =>
    intro fw fw' u h t ht
    simp at ht
  | cons t0 ts ih =>
    intro fw fw' u h t ht
    simp only [setup_loop] at h
    rcases List.mem_cons.mp ht with rfl | hts
    · by_cases he : iptables_rule_exists fw (ruleOf cip t)
      · rw [if_pos he] at h
        exact setup_loop_ok_superset env cip ts fw fw' u h _
          (decide_eq_true_iff.mp he)
      · rw [if_neg he] at h
        by_cases hok : env.insertOk (ruleOf cip t)
        · rw [if_pos hok] at h
          exact setup_loop_ok_superset env cip ts _ fw' u h _
            (List.mem_append.mpr (Or.inr (List.mem_singleton.mpr rfl)))
        · rw [if_neg hok] at h
          simp at h
    · by_cases he : iptables_rule_exists fw (ruleOf cip t0)
      · rw [if_pos he] at h
        exact ih fw fw' u h t hts
      · rw [if_neg he] at h
        by_cases hok : env.insertOk (ruleOf cip t0)
        · rw [if_pos hok] at h
          exact ih _ fw' u h t hts
        · rw [if_neg hok] at h
          simp at h

theorem setup_loop_allOk (env : Env) (cip : String)
    (hok : ∀ q, env.insertOk q = true) :
    ∀ ts fw, ∃ fw', setup_loop env cip fw ts = (fw', Except.ok ()) := by
  intro ts
  induction ts with
  | nil =>
    intro fw
    exact ⟨fw, rfl⟩
  | cons t ts ih =>
    intro fw
    by_cases he : iptables_rule_exists fw (ruleOf cip t)
    · obtain ⟨fw', h⟩ := ih fw
      exact ⟨fw', by simp only [setup_loop]; rw [if_pos he]; exact h⟩
    · obtain ⟨fw', h⟩ := ih (fw ++ [ruleOf cip t])
      refine ⟨fw', ?_⟩
      simp only [setup_loop]
      rw [if_neg he, if_pos (hok (ruleOf cip t))]
      exact h

theorem setup_iptables_rules_ok (env : Env) (fw : List FwRule) (cip : String)
    (es is_ : List Nat) (ps : List String) (sr : Bool) (fw' : List FwRule)
    (sv : Bool) (u : Unit)
    (h : setup_iptables_rules env fw cip es is_ ps sr =
      (fw', sv, Except.ok u)) :
    setup_loop env cip fw (zip3 es is_ ps) = (fw', Except.ok ()) ∧ sv = sr := by
  unfold setup_iptables_rules at h
  rcases hsl : setup_loop env cip fw (zip3 es is_ ps) with ⟨fw'', r⟩
  rw [hsl] at h
  cases r with
  | ok v =>
    cases v
    simp only [Prod.mk.injEq] at h
    obtain ⟨h1, h2, -⟩ := h
    subst h1
    exact ⟨rfl, h2.symm⟩
  | error e => simp at h

theorem setup_iptables_rules_error (env : Env) (fw : List FwRule)
    (cip : String) (es is_ : List Nat) (ps : List String) (sr : Bool)
    (fw' : List FwRule) (sv : Bool) (e : String)
    (h : setup_iptables_rules env fw cip es is_ ps sr =
      (fw', sv, Except.error e)) : sv = false := by
  unfold setup_iptables_rules at h
  rcases hsl : setup_loop env cip fw (zip3 es is_ ps) with ⟨fw'', r⟩
  rw [hsl] at h
  cases r with
  | ok v => simp at h
  | error e' =>
    simp only [Prod.mk.injEq] at h
    exact h.2.1.symm

/-! ### Case analysis of `add_container` -/

/-- When `determine_ports` is given no explicit external ports, its result
is the allocator's block and the unchanged requested count. -/
theorem determine_ports_none (env : Env) (db : DB) (np : Int)
    (ps : List Nat) (n : Nat)
    (h : determine_ports env db np none = some (ps, n)) :
    assign_ports env db np.toNat = some ps ∧ n = np.toNat := by
  unfold determine_ports at h
  rcases ha : assign_ports env db np.toNat with _ | ps'
  · rw [ha] at h
    simp at h
  · rw [ha] at h
    simp only [Option.some.injEq, Prod.mk.injEq] at h
    exact ⟨by rw [h.1], h.2.symm⟩

/-- Every aborting run of `add_container` (whatever the raised error) leaves
the store untouched and never saves the firewall rule set: all raises happen
before the database insert loop, and the save only runs after a fully
successful insertion batch. -/
theorem add_container_error_state (env : Env) (db : DB) (fw : List FwRule)
    (cip mode : String) (np : Int) (ips eps : Option (List Nat))
    (protos : Option (List String)) (temp : Bool) (desc : Option String)
    (db' : DB) (fw' : List FwRule) (sv : Bool) (e : String)
    (h : add_container env db fw cip mode np ips eps protos temp desc =
      (db', fw', sv, Except.error e)) : db' = db ∧ sv = false := by
  unfold add_container at h
  repeat'
    first
      | split at h
      | dsimp only at h
  all_goals simp only [Prod.mk.injEq] at h
  all_goals
    first
      | exact ⟨h.1.symm, h.2.2.1.symm⟩
      | exact absurd h.2.2.2 (by simp)

/-- Every successful run of `add_container` returns the position-wise zip of
the external ports, internal ports and protocols it settled on, applies
exactly those rules through the firewall loop, saves the rule set iff the
batch is not temporary, appends exactly the corresponding rows (or nothing
when temporary), and, when no explicit external ports were supplied, got its
external ports from `assign_ports`. -/
theorem add_container_ok_spec (env : Env) (db : DB) (fw : List FwRule)
    (cip mode : String) (np : Int) (ips eps : Option (List Nat))
    (protos : Option (List String)) (temp : Bool) (desc : Option String)
    (db' : DB) (fw' : List FwRule) (sv : Bool)
    (l : List (Nat × Nat × String))
    (h : add_container env db fw cip mode np ips eps protos temp desc =
      (db', fw', sv, Except.ok l)) :
    ∃ assigned internalPorts protocolsList,
      l = zip3 assigned internalPorts protocolsList ∧
      setup_loop env cip fw l = (fw', Except.ok ()) ∧
      sv = !temp ∧
      db' = (if temp then db else persist_mappings db cip desc l) ∧
      (eps = none → assign_ports env db np.toNat = some assigned) := by
  unfold add_container at h
  split at h
  · simp at h
  · split at h
    · simp at h
    · rcases hdp : determine_ports env db np eps with _ | ⟨assigned, n⟩
      · rw [hdp] at h
        simp at h
      · rw [hdp] at h
        dsimp only at h
        rcases hdt : determine_targets mode n assigned ips protos with e' |
          ⟨ipl, pl⟩
        · rw [hdt] at h
          simp at h
        · rw [hdt] at h
          dsimp only at h
          rcases hst : setup_iptables_rules env fw cip assigned ipl pl
            (!temp) with ⟨fw2, sv2, r2⟩
          rw [hst] at h
          cases r2 with
          | error e' => simp at h
          | ok u =>
            dsimp only at h
            simp only [Prod.mk.injEq] at h
            obtain ⟨hdb, hfw, hsv, hl⟩ := h
            injection hl with hl
            obtain ⟨hloop, hsaved⟩ := setup_iptables_rules_ok _ _ _ _ _ _ _
              _ _ _ hst
            refine ⟨assigned, ipl, pl, hl.symm, ?_, ?_, ?_, ?_⟩
            · rw [hl.symm, ← hfw]
              exact hloop
            · rw [← hsv, hsaved]
            · rw [← hdb, hl]
            · intro hnone
              subst hnone
              exact (determine_ports_none env db np assigned n hdp).1

/-! ### Preservation lemmas for allocator-driven adds -/

/-- Rows appended by a successful allocator-driven `add_container` carry
external ports drawn from the allocated block. -/
theorem add_rows_ext_mem (cip : String) (desc : Option String)
    (assigned ipl : List Nat) (pl : List String) (m : Mapping)
    (hm : m ∈ (zip3 assigned ipl pl).map (fun t =>
      ({ container_ip := cip, external_port := t.1, internal_port := t.2.1,
         protocol := t.2.2, temporary := false,
         description := desc } : Mapping))) :
    m.external_port ∈ assigned := by
  obtain ⟨t, htmem, rfl⟩ := List.mem_map.mp hm
  exact (zip3_map_fst_sublist assigned ipl pl).subset
    (List.mem_map_of_mem (fun t => t.1) htmem)

/-- An `add_container` call that supplies no explicit external ports keeps
all external ports of the store pairwise distinct: the allocator refuses
every port already present, and the freshly allocated block is itself
duplicate-free. -/
theorem add_container_auto_preserves_extsDistinct (env : Env) (db : DB)
    (fw : List FwRule) (cip mode : String) (np : Int)
    (ips : Option (List Nat)) (protos : Option (List String)) (temp : Bool)
    (desc : Option String) (db' : DB) (fw' : List FwRule) (sv : Bool)
    (r : Except String (List (Nat × Nat × String)))
    (h : add_container env db fw cip mode np ips none protos temp desc =
      (db', fw', sv, r))
    (hd : extsDistinct db) : extsDistinct db' := by
  cases r with
  | error e =>
    rw [(add_container_error_state env db fw cip mode np ips none
      protos temp desc db' fw' sv e h).1]
    exact hd
  | ok l =>
    obtain ⟨assigned, ipl, pl, hl, hloop, hsv, hdb, halloc⟩ :=
      add_container_ok_spec env db fw cip mode np ips none protos
        temp desc db' fw' sv l h
    have ha := halloc rfl
    rw [hdb]
    by_cases ht : temp
    · rw [if_pos ht]
      exact hd
    · rw [if_neg ht]
      subst hl
      unfold extsDistinct persist_mappings at *
      rw [List.pairwise_append]
      refine ⟨hd, ?_, ?_⟩
      · rw [List.pairwise_map]
        have hpw := (assign_ports_pairwise_ne env db np.toNat assigned
          ha).sublist (zip3_map_fst_sublist assigned ipl pl)
        rw [List.pairwise_map] at hpw
        exact hpw
      · intro a hain b hbin
        have hmem := add_rows_ext_mem cip desc assigned ipl pl b hbin
        intro hEq
        exact assign_ports_not_assigned env db np.toNat assigned ha
          b.external_port hmem
          (List.mem_map.mpr ⟨a, hain, hEq⟩)

/-- An `add_container` call that supplies no explicit external ports never
persists a row whose external port was reserved at call time. -/
theorem add_container_auto_respects_reserved (env : Env) (db : DB)
    (fw : List FwRule) (cip mode : String) (np : Int)
    (ips : Option (List Nat)) (protos : Option (List String)) (temp : Bool)
    (desc : Option String) (db' : DB) (fw' : List FwRule) (sv : Bool)
    (r : Except String (List (Nat × Nat × String)))
    (h : add_container env db fw cip mode np ips none protos temp desc =
      (db', fw', sv, r)) :
    ∀ m ∈ db'.port_mappings,
      m ∈ db.port_mappings ∨ ¬ m.external_port ∈ db.reserved_ports := by
  cases r with
  | error e =>
    rw [(add_container_error_state env db fw cip mode np ips none
      protos temp desc db' fw' sv e h).1]
    intro m hm
    exact Or.inl hm
  | ok l =>
    obtain ⟨assigned, ipl, pl, hl, hloop, hsv, hdb, halloc⟩ :=
      add_container_ok_spec env db fw cip mode np ips none protos
        temp desc db' fw' sv l h
    have ha := halloc rfl
    rw [hdb]
    by_cases ht : temp
    · rw [if_pos ht]
      intro m hm
      exact Or.inl hm
    · rw [if_neg ht]
      subst hl
      unfold persist_mappings
      intro m hm
      rcases List.mem_append.mp hm with hold | hnew
      · exact Or.inl hold
      · exact Or.inr (assign_ports_not_reserved env db np.toNat assigned ha
          m.external_port (add_rows_ext_mem cip desc assigned ipl pl m hnew))

/-! ### Lemmas about `rebuild_database` -/

theorem countP_key_eq_zero_iff (db : DB) (r : FwRule) :
    db.port_mappings.countP (fun m =>
      decide (m.container_ip = r.container_ip ∧
        m.external_port = r.external_port ∧
        m.protocol = r.protocol)) = 0 ↔ ¬ keyPresent db r := by
  rw [List.countP_eq_zero]
  unfold keyPresent
  simp only [decide_eq_true_iff]
  constructor
  · rintro h ⟨m, hm, hk⟩
    exact h m hm hk
  · intro h m hm hk
    exact h ⟨m, hm, hk⟩

theorem rebuild_database_mono : ∀ (rules : List FwRule) (db : DB)
    (m : Mapping), m ∈ db.port_mappings →
    m ∈ (rebuild_database db rules).1.port_mappings := by
  intro rules
  induction rules with
  | nil =>
    intro db m hm
    exact hm
  | cons r rs ih =>
    intro db m hm
    rw [rebuild_database]
    by_cases hc : db.port_mappings.countP (fun m =>
      decide (m.container_ip = r.container_ip ∧
        m.external_port = r.external_port ∧
        m.protocol = r.protocol)) = 0
    · rw [if_pos hc]
      exact ih _ m (List.mem_append.mpr (Or.inl hm))
    · rw [if_neg hc]
      exact ih db m hm

theorem rebuild_database_covers : ∀ (rules : List FwRule) (db : DB),
    ∀ r ∈ rules, keyPresent (rebuild_database db rules).1 r := by
  intro rules
  induction rules with
  | nil =>
    intro db r hr
    simp at hr
  | cons r0 rs ih =>
    intro db r hr
    rw [rebuild_database]
    by_cases hc : db.port_mappings.countP (fun m =>
      decide (m.container_ip = r0.container_ip ∧
        m.external_port = r0.external_port ∧
        m.protocol = r0.protocol)) = 0
    · rw [if_pos hc]
      rcases List.mem_cons.mp hr with rfl | hrs
      · refine ⟨Mapping.mk r.container_ip r.external_port r.internal_port
          r.protocol false none, ?_, rfl, rfl, rfl⟩
        exact rebuild_database_mono rs _ _
          (List.mem_append.mpr (Or.inr (List.mem_singleton.mpr rfl)))
      · exact ih _ r hrs
    · rw [if_neg hc]
      rcases List.mem_cons.mp hr with rfl | hrs
      · have hp : keyPresent db r := by
          by_contra hnp
          exact hc ((countP_key_eq_zero_iff db r).mpr hnp)
        obtain ⟨m, hm, hk⟩ := hp
        exact ⟨m, rebuild_database_mono rs db m hm, hk⟩
      · exact ih db r hrs

theorem rebuild_database_noop : ∀ (rules : List FwRule) (db : DB),
    (∀ r ∈ rules, keyPresent db r) → rebuild_database db rules = (db, 0) := by
  intro rules
  induction rules with
  | nil =>
    intro db _
    rfl
  | cons r rs ih =>
    intro db hall
    rw [rebuild_database]
    rw [if_neg (fun hc =>
      ((countP_key_eq_zero_iff db r).mp hc) (hall r (List.mem_cons_self r rs)))]
    exact ih db (fun q hq => hall q (List.mem_cons_of_mem r hq))

/-! ## Claim theorems -/

/-- Claim C2: if a firewall rule insertion fails during `add_container` (a
failing `iptables -A` raises and surfaces as the returned error; every abort
path is covered), the whole operation aborts and the Rule Store is left
exactly as before the call — no `port_mappings` row for the owner is
inserted. -/
theorem c2_add_insertion_failure_is_atomic (env : Env) (db : DB)
    (fw : List FwRule) (cip mode : String) (np : Int)
    (ips eps : Option (List Nat)) (protos : Option (List String))
    (temp : Bool) (desc : Option String) (db' : DB) (fw' : List FwRule)
    (sv : Bool) (e : String)
    (h : add_container env db fw cip mode np ips eps protos temp desc =
      (db', fw', sv, Except.error e)) : db' = db :=
  (add_container_error_state env db fw cip mode np ips eps protos temp desc
    db' fw' sv e h).1

/-- Witness for C2: with every iptables insert failing, the add aborts with
an error and the store is unchanged. -/
theorem c2_witness :
    add_container envBad dbEmpty [] "10.0.0.5" "automatic" 1 none none none
      false none =
      (dbEmpty, [], false, Except.error "iptables insert command failed") ∧
    dbEmpty = dbEmpty :=
  ⟨rfl, c2_add_insertion_failure_is_atomic envBad dbEmpty [] "10.0.0.5"
    "automatic" 1 none none none false none dbEmpty [] false
    "iptables insert command failed" rfl⟩

/-- Claim C3: for every positive count and every state, `assign_ports`
returns exactly the contiguous increasing block
`[base + k*count, base + k*count + count)` for some `k`, none of whose ports
is assigned, live-bound or reserved, while every earlier candidate block
contains at least one assigned, live-bound or reserved port. -/
theorem c3_allocator_correct (env : Env) (db : DB) (count : Nat)
    (hc : 0 < count) :
    ∃ k : Nat,
      assign_ports env db count =
        some ((List.range count).map (fun i =>
          env.port_start + k * count + i)) ∧
      (∀ i < count,
        ¬ (env.port_start + k * count + i ∈
             db.port_mappings.map (fun m => m.external_port) ∨
           env.port_start + k * count + i ∈ env.livePorts ∨
           env.port_start + k * count + i ∈ db.reserved_ports)) ∧
      (∀ j < k, ∃ i < count,
        (env.port_start + j * count + i ∈
           db.port_mappings.map (fun m => m.external_port) ∨
         env.port_start + j * count + i ∈ env.livePorts ∨
         env.port_start + j * count + i ∈ db.reserved_ports)) := by
  obtain ⟨ps, hps⟩ := Option.isSome_iff_exists.mp
    (assign_ports_isSome env db count)
  obtain ⟨k, hform, hfree, hconf⟩ := assign_ports_spec env db count ps hps
  refine ⟨k, ?_, hfree, hconf⟩
  rw [hps, hform]

/-- Witness for C3 at count 2 over a store that reserves 50001: the first
candidate block conflicts, so the block at 50002 is returned. -/
theorem c3_witness :
    0 < 2 ∧
    ∃ k : Nat,
      assign_ports envOk dbRes 2 =
        some ((List.range 2).map (fun i =>
          envOk.port_start + k * 2 + i)) ∧
      (∀ i < 2,
        ¬ (envOk.port_start + k * 2 + i ∈
             dbRes.port_mappings.map (fun m => m.external_port) ∨
           envOk.port_start + k * 2 + i ∈ envOk.livePorts ∨
           envOk.port_start + k * 2 + i ∈ dbRes.reserved_ports)) ∧
      (∀ j < k, ∃ i < 2,
        (envOk.port_start + j * 2 + i ∈
           dbRes.port_mappings.map (fun m => m.external_port) ∨
         envOk.port_start + j * 2 + i ∈ envOk.livePorts ∨
         envOk.port_start + j * 2 + i ∈ dbRes.reserved_ports)) :=
  ⟨by decide, c3_allocator_correct envOk dbRes 2 (by decide)⟩

/-- Claim C4: with base port 50000, an empty store and no conflicts, an
automatic add of 6 ports for owner "10.0.0.5" returns exactly the six listed
triples: the first four slots map to 22, 80, 443 and 8080 over tcp, the
remaining slots map internal = external over tcp. -/
theorem c4_automatic_scenario :
    (add_container envOk dbEmpty [] "10.0.0.5" "automatic" 6 none none none
      false none).2.2.2 =
      Except.ok [(50000, 22, "tcp"), (50001, 80, "tcp"), (50002, 443, "tcp"),
        (50003, 8080, "tcp"), (50004, 50004, "tcp"),
        (50005, 50005, "tcp")] := by
  rfl

/-- Claim C6 counterexample: a requested count of -3 (≤ 0) does not make the
operation fail with InvalidArgument; `add_container` returns normally with
an empty mapping list and an unchanged store. -/
theorem c6_counterexample :
    add_container envOk dbEmpty [] "10.0.0.5" "automatic" (-3) none none none
      false none = (dbEmpty, [], true, Except.ok []) := by
  rfl

/-- Claim C6 amended: for every count ≤ 0 the allocation path returns
normally: the allocator scans nothing, `add_container` binds no ports and
returns the empty list, with store and firewall unchanged (the rule-set save
still runs for non-temporary batches). -/
theorem c6_nonpositive_count_returns_empty (env : Env) (db : DB)
    (fw : List FwRule) (cip : String) (protos : Option (List String))
    (temp : Bool) (desc : Option String) (np : Int) (hnp : np ≤ 0)
    (hv : validate_ip cip = true)
    (hfresh : db.port_mappings.countP
      (fun m => decide (m.container_ip = cip)) = 0) :
    add_container env db fw cip "automatic" np none none protos temp desc =
      (db, fw, !temp, Except.ok []) := by
  have h0 : np.toNat = 0 := Int.toNat_of_nonpos hnp
  obtain ⟨ps, hps⟩ := Option.isSome_iff_exists.mp
    (assign_ports_isSome env db np.toNat)
  have hlen := assign_ports_length env db np.toNat ps hps
  rw [h0] at hps hlen
  have hps0 : ps = [] := List.length_eq_zero.mp hlen
  subst hps0
  have hdp : determine_ports env db np none = some ([], 0) := by
    unfold determine_ports
    rw [h0, hps]
  unfold add_container
  rw [if_neg (by simp [hv])]
  rw [if_neg (by simp [hfresh])]
  rw [hdp]
  dsimp only
  have hdt : determine_targets "automatic" 0 [] none protos =
      Except.ok ([], []) := rfl
  rw [hdt]
  dsimp only
  have hst : setup_iptables_rules env fw cip [] [] [] (!temp) =
      (fw, !temp, Except.ok ()) := rfl
  rw [hst]
  simp [persist_mappings, zip3]

/-- Witness for C6 amended at count -3 on the empty store. -/
theorem c6_witness :
    ((-3 : Int) ≤ 0 ∧ validate_ip "10.0.0.5" = true ∧
      dbEmpty.port_mappings.countP
        (fun m => decide (m.container_ip = "10.0.0.5")) = 0) ∧
    add_container envOk dbEmpty [] "10.0.0.5" "automatic" (-3) none none none
      true none = (dbEmpty, [], !true, Except.ok []) :=
  ⟨⟨by decide, rfl, rfl⟩, c6_nonpositive_count_returns_empty envOk dbEmpty []
    "10.0.0.5" none true none (-3) (by decide) rfl rfl⟩

/-- Claim C8: running `rebuild_database` twice over the same parsed firewall
snapshot is idempotent: the second run inserts zero new rows and leaves the
store exactly as the first run left it. -/
theorem c8_rebuild_idempotent (db : DB) (rules : List FwRule) :
    rebuild_database (rebuild_database db rules).1 rules =
      ((rebuild_database db rules).1, 0) :=
  rebuild_database_noop rules (rebuild_database db rules).1
    (fun r hr => rebuild_database_covers rules db r hr)

/-- Claim C9: a successful `add_container` with `temporary = true` leaves
the persisted store completely unchanged, skips the rule-set save, yet every
returned triple's firewall rule is present live, and the triple list itself
is returned. -/
theorem c9_temporary_add (env : Env) (db : DB) (fw : List FwRule)
    (cip mode : String) (np : Int) (ips eps : Option (List Nat))
    (protos : Option (List String)) (desc : Option String) (db' : DB)
    (fw' : List FwRule) (sv : Bool) (l : List (Nat × Nat × String))
    (h : add_container env db fw cip mode np ips eps protos true desc =
      (db', fw', sv, Except.ok l)) :
    db' = db ∧ sv = false ∧ ∀ t ∈ l, ruleOf cip t ∈ fw' := by
  obtain ⟨a, b, c, hl, hloop, hsv, hdb, -⟩ :=
    add_container_ok_spec env db fw cip mode np ips eps protos true desc
      db' fw' sv l h
  refine ⟨?_, ?_, ?_⟩
  · rw [hdb]
    simp
  · simp [hsv]
  · intro t ht
    exact setup_loop_ok_mem env cip l fw fw' () hloop t ht

/-- Witness for C9: a temporary automatic add of two ports applies both
rules, persists nothing, and returns the two triples. -/
theorem c9_witness :
    add_container envOk dbEmpty [] "10.0.0.5" "automatic" 2 none none none
      true none =
      (dbEmpty,
       [FwRule.mk "tcp" 50000 "10.0.0.5" 22,
        FwRule.mk "tcp" 50001 "10.0.0.5" 80], false,
       Except.ok [(50000, 22, "tcp"), (50001, 80, "tcp")]) ∧
    (dbEmpty = dbEmpty ∧ false = false ∧
      ∀ t ∈ [(50000, 22, "tcp"), (50001, 80, "tcp")],
        ruleOf "10.0.0.5" t ∈
          [FwRule.mk "tcp" 50000 "10.0.0.5" 22,
           FwRule.mk "tcp" 50001 "10.0.0.5" 80]) :=
  ⟨rfl, c9_temporary_add envOk dbEmpty [] "10.0.0.5" "automatic" 2 none none
    none none dbEmpty
    [FwRule.mk "tcp" 50000 "10.0.0.5" 22, FwRule.mk "tcp" 50001 "10.0.0.5" 80]
    false [(50000, 22, "tcp"), (50001, 80, "tcp")] rfl⟩

/-- Claim C7 counterexample: in manual mode a protocols list whose length
(1) differs from the requested count (2) raises no CountMismatch error: the
operation succeeds and silently truncates to one triple. -/
theorem c7_counterexample :
    (add_container envOk dbEmpty [] "10.0.0.5" "manual" 2 (some [80, 443])
      none (some ["tcp"]) false none).2.2.2 =
      Except.ok [(50000, 80, "tcp")] := by
  rfl

/-- Claim C7 amended: in manual mode only the internal-port list is
validated against the requested count; a mismatch raises the count-mismatch
error with no firewall or store mutation (protocol lists are not checked —
see the counterexample). -/
theorem c7_internal_count_mismatch (env : Env) (db : DB) (fw : List FwRule)
    (cip : String) (np : Int) (l : List Nat)
    (protos : Option (List String)) (temp : Bool) (desc : Option String)
    (hv : validate_ip cip = true)
    (hfresh : db.port_mappings.countP
      (fun m => decide (m.container_ip = cip)) = 0)
    (hne : l ≠ []) (hlen : l.length ≠ np.toNat) :
    add_container env db fw cip "manual" np (some l) none protos temp desc =
      (db, fw, false,
        Except.error "Number of internal ports doesn't match num_ports") := by
  obtain ⟨ps, hps⟩ := Option.isSome_iff_exists.mp
    (assign_ports_isSome env db np.toNat)
  have hdp : determine_ports env db np none = some (ps, np.toNat) := by
    unfold determine_ports
    rw [hps]
  have hdt : determine_targets "manual" np.toNat ps (some l) protos =
      Except.error "Number of internal ports doesn't match num_ports" := by
    unfold determine_targets
    rw [if_neg (by decide), if_pos rfl]
    cases l with
    | nil => exact absurd rfl hne
    | cons i0 is_ =>
      dsimp only
      rw [if_pos hlen]
  unfold add_container
  rw [if_neg (by simp [hv]), if_neg (by simp [hfresh]), hdp]
  dsimp only
  rw [hdt]

/-- Witness for C7 amended: the claim scenario itself, `num_ports = 3` with
only two internal ports supplied. -/
theorem c7_witness :
    (validate_ip "10.0.0.5" = true ∧ ([80, 443] : List Nat) ≠ [] ∧
      ([80, 443] : List Nat).length ≠ (3 : Int).toNat) ∧
    add_container envOk dbEmpty [] "10.0.0.5" "manual" 3 (some [80, 443])
      none none false none =
      (dbEmpty, [], false,
        Except.error "Number of internal ports doesn't match num_ports") :=
  ⟨⟨rfl, by decide, by decide⟩, c7_internal_count_mismatch envOk dbEmpty []
    "10.0.0.5" 3 [80, 443] none false none rfl rfl (by decide) (by decide)⟩

/-- Claim C10 counterexample: an empty protocols list has length 0 ≠ 2 =
`num_ports`, yet Python truthiness replaces it by the all-tcp default, so
the call returns 2 triples, not min(2, 0) = 0. -/
theorem c10_counterexample :
    (add_container envOk dbEmpty [] "10.0.0.5" "manual" 2 (some [80, 443])
      none (some []) false none).2.2.2 =
      Except.ok [(50000, 80, "tcp"), (50001, 443, "tcp")] ∧
    ∀ l, (add_container envOk dbEmpty [] "10.0.0.5" "manual" 2
        (some [80, 443]) none (some []) false none).2.2.2 = Except.ok l →
      l.length ≠ min 2 ([] : List String).length := by
  refine ⟨rfl, ?_⟩
  intro l hl
  rw [show (add_container envOk dbEmpty [] "10.0.0.5" "manual" 2
      (some [80, 443]) none (some []) false none).2.2.2 =
      Except.ok [(50000, 80, "tcp"), (50001, 443, "tcp")] from rfl] at hl
  injection hl with hl
  rw [← hl]
  decide

/-- Claim C10 amended: in manual mode with a valid fresh owner, internal
ports matching the count, and a NON-EMPTY protocols list whose length
differs from the count, `add_container` raises no error; all three lists are
zipped position-wise and truncated to the shortest, so the returned triples
and the inserted rows number `min num_ports (length protocols)`, and exactly
those rules are ensured in the firewall. -/
theorem c10_protocol_truncation (env : Env) (db : DB) (fw : List FwRule)
    (cip : String) (np : Int) (l : List Nat) (ps : List String)
    (desc : Option String)
    (hok : ∀ q, env.insertOk q = true)
    (hv : validate_ip cip = true)
    (hfresh : db.port_mappings.countP
      (fun m => decide (m.container_ip = cip)) = 0)
    (hl : l ≠ []) (hlen : l.length = np.toNat)
    (hp : ps ≠ []) (hplen : ps.length ≠ np.toNat) :
    ∃ trip fw2,
      add_container env db fw cip "manual" np (some l) none (some ps) false
        desc = (persist_mappings db cip desc trip, fw2, true,
          Except.ok trip) ∧
      trip.length = min np.toNat ps.length ∧
      (persist_mappings db cip desc trip).port_mappings.length =
        db.port_mappings.length + min np.toNat ps.length ∧
      ∀ t ∈ trip, ruleOf cip t ∈ fw2 := by
  obtain ⟨assigned, hpa⟩ := Option.isSome_iff_exists.mp
    (assign_ports_isSome env db np.toNat)
  have halen := assign_ports_length env db np.toNat assigned hpa
  have hdp : determine_ports env db np none = some (assigned, np.toNat) := by
    unfold determine_ports
    rw [hpa]
  have hdt : determine_targets "manual" np.toNat assigned (some l)
      (some ps) = Except.ok (l, ps) := by
    unfold determine_targets
    rw [if_neg (by decide), if_pos rfl]
    cases l with
    | nil => exact absurd rfl hl
    | cons i0 is_ =>
      dsimp only
      rw [if_neg (fun hcon => hcon hlen)]
      cases ps with
      | nil => exact absurd rfl hp
      | cons p tail => rfl
  obtain ⟨fw2, hfw2⟩ := setup_loop_allOk env cip hok (zip3 assigned l ps) fw
  have hst : setup_iptables_rules env fw cip assigned l ps (!false) =
      (fw2, !false, Except.ok ()) := by
    unfold setup_iptables_rules
    rw [hfw2]
  have hmin : min np.toNat (min np.toNat ps.length) =
      min np.toNat ps.length := by
    rw [← Nat.min_assoc, Nat.min_self]
  refine ⟨zip3 assigned l ps, fw2, ?_, ?_, ?_, ?_⟩
  · unfold add_container
    rw [if_neg (by simp [hv]), if_neg (by simp [hfresh]), hdp]
    dsimp only
    rw [hdt]
    dsimp only
    rw [hst]
    rfl
  · rw [zip3_length, halen, hlen, hmin]
  · unfold persist_mappings
    rw [List.length_append, List.length_map, zip3_length, halen, hlen, hmin]
  · intro t ht
    exact setup_loop_ok_mem env cip (zip3 assigned l ps) fw fw2 () hfw2 t ht

/-- Witness for C10 amended: two internal ports, three protocols, count 2:
two triples come back and two rows are inserted. -/
theorem c10_witness :
    ((∀ q, envOk.insertOk q = true) ∧ validate_ip "10.0.0.5" = true ∧
      dbEmpty.port_mappings.countP
        (fun m => decide (m.container_ip = "10.0.0.5")) = 0 ∧
      ([80, 443] : List Nat) ≠ [] ∧
      ([80, 443] : List Nat).length = (2 : Int).toNat ∧
      (["udp", "tcp", "udp"] : List String) ≠ [] ∧
      (["udp", "tcp", "udp"] : List String).length ≠ (2 : Int).toNat) ∧
    ∃ trip fw2,
      add_container envOk dbEmpty [] "10.0.0.5" "manual" 2 (some [80, 443])
        none (some ["udp", "tcp", "udp"]) false none =
        (persist_mappings dbEmpty "10.0.0.5" none trip, fw2, true,
          Except.ok trip) ∧
      trip.length = min (2 : Int).toNat (["udp", "tcp", "udp"] :
        List String).length ∧
      (persist_mappings dbEmpty "10.0.0.5" none trip).port_mappings.length =
        dbEmpty.port_mappings.length + min (2 : Int).toNat
          (["udp", "tcp", "udp"] : List String).length ∧
      ∀ t ∈ trip, ruleOf "10.0.0.5" t ∈ fw2 :=
  ⟨⟨fun _ => rfl, rfl, rfl, by decide, by decide, by decide, by decide⟩,
   c10_protocol_truncation envOk dbEmpty [] "10.0.0.5" 2 [80, 443]
     ["udp", "tcp", "udp"] none (fun _ => rfl) rfl rfl (by decide)
     (by decide) (by decide) (by decide)⟩

/-- Claim C1 counterexample: the uniqueness invariant fails on a reachable
store. An automatic add for "10.0.0.1" takes (50000, tcp); a second add for
"10.0.0.2" with explicit external port 50000 runs no conflict check and is
persisted, leaving two rows with the same (external_port, protocol) pair. -/
theorem c1_counterexample : Reach dbDup ∧ ¬ extProtoUnique dbDup := by
  constructor
  · have h1 : add_container envOk dbEmpty [] "10.0.0.1" "automatic" 1 none
        none none false none =
        ({ port_mappings := [Mapping.mk "10.0.0.1" 50000 22 "tcp" false none],
           reserved_ports := [] },
         [FwRule.mk "tcp" 50000 "10.0.0.1" 22], true,
         Except.ok [(50000, 22, "tcp")]) := by rfl
    have h2 : add_container envOk
        { port_mappings := [Mapping.mk "10.0.0.1" 50000 22 "tcp" false none],
          reserved_ports := [] } [] "10.0.0.2" "automatic" 0 none
        (some [50000]) none false none =
        (dbDup, [FwRule.mk "tcp" 50000 "10.0.0.2" 22], true,
         Except.ok [(50000, 22, "tcp")]) := by rfl
    exact Reach.add (Reach.add Reach.init h1) h2
  · intro h
    unfold extProtoUnique dbDup at h
    rcases List.pairwise_cons.mp h with ⟨hfa, -⟩
    exact hfa _ (List.mem_singleton.mpr rfl) ⟨rfl, rfl⟩

/-- Claim C1 amended: for stores reachable by `add_container` calls that
never pass explicit external ports (every port comes from the allocator —
the paths through explicit external ports, `import_mappings` and
`rebuild_database` bypass the check and are excluded), no two rows share the
(external_port, protocol) pair. -/
theorem c1_unique_pairs_auto (db : DB) (h : ReachAuto db) :
    extProtoUnique db := by
  have hd : extsDistinct db := by
    induction h with
    | init => exact List.Pairwise.nil
    | add hprev heq ih =>
      exact add_container_auto_preserves_extsDistinct _ _ _ _ _ _ _ _ _ _ _
        _ _ _ heq ih
  unfold extProtoUnique
  unfold extsDistinct at hd
  exact hd.imp (fun hne hand => hne hand.1)

/-- Witness for C1 amended: one allocator-driven add step from the empty
store, whose resulting store satisfies the uniqueness invariant. -/
theorem c1_witness :
    ReachAuto
      { port_mappings := [Mapping.mk "10.0.0.1" 50000 22 "tcp" false none],
        reserved_ports := [] } ∧
    extProtoUnique
      { port_mappings := [Mapping.mk "10.0.0.1" 50000 22 "tcp" false none],
        reserved_ports := [] } :=
  have hstep : ReachAuto
      { port_mappings := [Mapping.mk "10.0.0.1" 50000 22 "tcp" false none],
        reserved_ports := [] } :=
    ReachAuto.add ReachAuto.init
      (show add_container envOk dbEmpty [] "10.0.0.1" "automatic" 1 none
          none none false none =
        ({ port_mappings := [Mapping.mk "10.0.0.1" 50000 22 "tcp" false none],
           reserved_ports := [] },
         [FwRule.mk "tcp" 50000 "10.0.0.1" 22], true,
         Except.ok [(50000, 22, "tcp")]) from rfl)
  ⟨hstep, c1_unique_pairs_auto _ hstep⟩

/-- Claim C5 counterexample: a reachable state (reserve 50000, then add with
explicit external port 50000) holds a persisted row whose external port is
still reserved: the explicit-external-port path performs no reserved
check. -/
theorem c5_counterexample :
    ReachR dbResBad ∧
    ∃ m ∈ dbResBad.port_mappings,
      m.external_port ∈ dbResBad.reserved_ports := by
  constructor
  · have h0 : reserve_ports dbEmpty [50000] =
        { port_mappings := [], reserved_ports := [50000] } := by rfl
    have hres0 : ReachR (reserve_ports dbEmpty [50000]) :=
      ReachR.reserve ReachR.init
    rw [h0] at hres0
    have h1 : add_container envOk
        { port_mappings := [], reserved_ports := [50000] } [] "10.0.0.2"
        "automatic" 0 none (some [50000]) none false none =
        (dbResBad, [FwRule.mk "tcp" 50000 "10.0.0.2" 22], true,
         Except.ok [(50000, 22, "tcp")]) := by rfl
    exact ReachR.add hres0 h1
  · exact ⟨Mapping.mk "10.0.0.2" 50000 22 "tcp" false none, by decide,
      by decide⟩

/-- Claim C5 amended: the allocator never returns a reserved port, and an
`add_container` call without explicit external ports never inserts a row
whose external port was reserved at call time; the explicit-external-port
path (and import/rebuild) bypass the reserved check, as the counterexample
shows. -/
theorem c5_reserved_never_allocated :
    (∀ (env : Env) (db : DB) (n : Nat) (ps : List Nat) (p : Nat),
      assign_ports env db n = some ps → p ∈ ps →
      ¬ p ∈ db.reserved_ports) ∧
    (∀ (env : Env) (db : DB) (fw : List FwRule) (cip mode : String)
      (np : Int) (ips : Option (List Nat)) (protos : Option (List String))
      (temp : Bool) (desc : Option String) (db' : DB) (fw' : List FwRule)
      (sv : Bool) (r : Except String (List (Nat × Nat × String))),
      add_container env db fw cip mode np ips none protos temp desc =
        (db', fw', sv, r) →
      ∀ m ∈ db'.port_mappings,
        m ∈ db.port_mappings ∨ ¬ m.external_port ∈ db.reserved_ports) :=
  ⟨fun env db n ps p hps hp =>
    assign_ports_not_reserved env db n ps hps p hp,
   fun env db fw cip mode np ips protos temp desc db' fw' sv r h =>
    add_container_auto_respects_reserved env db fw cip mode np ips protos
      temp desc db' fw' sv r h⟩

/-- Witness for C5 amended: with 50001 reserved, the allocator hands out
50000 (not reserved), and the rows added by an allocator-driven add over
that store avoid the reserved port. -/
theorem c5_witness :
    ¬ (50000 : Nat) ∈ dbRes.reserved_ports ∧
    (∀ m ∈ (DB.mk [Mapping.mk "10.0.0.9" 50000 22 "tcp" false none]
        [50001]).port_mappings,
      m ∈ dbRes.port_mappings ∨
        ¬ m.external_port ∈ dbRes.reserved_ports) :=
  ⟨c5_reserved_never_allocated.1 envOk dbRes 1 [50000] 50000 rfl
    (by decide),
   c5_reserved_never_allocated.2 envOk dbRes [] "10.0.0.9" "automatic" 1
    none none false none
    (DB.mk [Mapping.mk "10.0.0.9" 50000 22 "tcp" false none] [50001])
    [FwRule.mk "tcp" 50000 "10.0.0.9" 22] true
    (Except.ok [(50000, 22, "tcp")]) rfl⟩

end NatManager
